import Mathlib

/-!
Shallow embedding of the notifications-service delivery pipeline
(`src/db/queries.rs`, `src/db/listener.rs`, `src/push/fcm.rs`,
`src/worker/processor.rs`, `src/main.rs`) and proofs about it.

Machine integers (i64 limits, u64 timestamps, usize counts) are modelled as
`Nat`; UUIDs are modelled as `Nat` with `0` standing for the all-zero
(broadcast) identifier; Rust `Result` is `Except`; outcomes of external
I/O calls (bus publish, FCM HTTP exchange, stored-procedure calls) are
inputs of the embedded functions, so every embedded function is pure and
executable.
-/

/- ═══════════════════ Store: db/queries.rs ═══════════════════ -/

/-- A row of `activity.notifications` as the Store sees it
(queries.rs: the SELECT list plus the `is_processed` / `deliver_at`
columns that the schema carries and the WHERE clause can mention).
Timestamps are seconds as `Nat`. -/
structure NotifRow where
  notification_id : Nat
  user_id : Nat
  title : String
  is_processed : Bool
  deliver_at : Nat
  created_at : Nat
deriving DecidableEq, Repr

/-- Stable insertion of a row into a list sorted by `created_at`
ascending (models the `ORDER BY created_at ASC` of queries.rs:36). -/
def insertByCreated (r : NotifRow) : List NotifRow → List NotifRow
  | [] => [r]
  | x :: xs =>
    if x.created_at ≤ r.created_at then x :: insertByCreated r xs
    else r :: x :: xs

/-- Sort rows by `created_at` ascending. -/
def sortByCreated (l : List NotifRow) : List NotifRow :=
  l.foldr insertByCreated []

/-- queries.rs:12-80 `NotificationQueries::fetch_unprocessed`:
`SELECT ... FROM activity.notifications WHERE is_processed = false
ORDER BY created_at ASC LIMIT $1`.  Note that the WHERE clause filters
only on `is_processed`; `deliver_at` is not consulted. -/
def fetch_unprocessed (table : List NotifRow) (limit : Nat) : List NotifRow :=
  (sortByCreated (table.filter (fun r => !r.is_processed))).take limit

/- ═══════════════════ mask_token (worker/processor.rs:606-614,
   push/fcm.rs:467-475, db/queries.rs:300-308 — three identical copies) ═══ -/

/-- UTF-8 encoded size in bytes of one scalar value (Rust `char`/`str`
byte accounting). -/
def utf8Size (c : Char) : Nat :=
  if c.toNat < 0x80 then 1
  else if c.toNat < 0x800 then 2
  else if c.toNat < 0x10000 then 3
  else 4

/-- Rust `str::len`: number of UTF-8 bytes. -/
def byteLen (s : List Char) : Nat :=
  (s.map utf8Size).sum

/-- Rust byte-slice `&s[..k]`: `some` prefix when `k` lands on a char
boundary inside the string, `none` when the slice would panic. -/
def takeBytes : List Char → Nat → Option (List Char)
  | _, 0 => some []
  | [], _ + 1 => none
  | c :: cs, n + 1 =>
    if utf8Size c ≤ n + 1 then
      (takeBytes cs (n + 1 - utf8Size c)).map (fun t => c :: t)
    else none

/-- Rust byte-slice `&s[k..]`: `some` suffix when `k` lands on a char
boundary, `none` when the slice would panic. -/
def dropBytes : List Char → Nat → Option (List Char)
  | s, 0 => some s
  | [], _ + 1 => none
  | c :: cs, n + 1 =>
    if utf8Size c ≤ n + 1 then dropBytes cs (n + 1 - utf8Size c)
    else none

/-- `mask_token` (identical in processor.rs, fcm.rs and queries.rs):
`if token.len() > 12 { format!("{}...{}", &token[..6], &token[token.len()-4..]) }
else if token.len() > 4 { format!("{}...", &token[..4]) } else { "****" }`.
`none` models the panic of a byte slice that splits a multi-byte char. -/
def mask_token (s : List Char) : Option String :=
  let n := byteLen s
  if n > 12 then
    match takeBytes s 6, dropBytes s (n - 4) with
    | some a, some b => some (String.mk a ++ "..." ++ String.mk b)
    | _, _ => none
  else if n > 4 then
    match takeBytes s 4 with
    | some a => some (String.mk a ++ "...")
    | none => none
  else some "****"

/- ═══════════════════ Wake channel: main.rs:100-101, db/listener.rs:104-125 ═══ -/

/-- main.rs:101: `let (wake_tx, wake_rx) = mpsc::channel::<()>(10);` -/
def wakeChannelCapacity : Nat := 10

/-- listener.rs:104 `tx.try_send(())`: the signal is unit-valued, so the
channel state is just the count of pending signals; a send into a full
channel is dropped (`TrySendError::Full` branch, listener.rs:111-117). -/
def trySendWake (pending : Nat) : Nat :=
  if pending < wakeChannelCapacity then pending + 1 else pending

/-- `n` NOTIFY events arriving while the worker is not receiving
(listener.rs:77-126 loop, one `try_send` per event). -/
def deliverWakes : Nat → Nat → Nat
  | 0, q => q
  | n + 1, q => deliverWakes n (trySendWake q)

/-- processor.rs:89-107: each buffered wake signal makes `wake_rx.recv()`
win the `select!` immediately once, so each pending signal costs exactly
one extra processing cycle before the worker goes idle again. -/
def extraCycles (pending : Nat) : Nat := pending

/- ═══════════════════ Push sink: push/fcm.rs ═══════════════════ -/

/-- fcm.rs:94-100 `enum FcmError`. -/
inductive FcmError where
  | notInitialized
  | tokenError (e : String)
  | sendError (e : String)
  | invalidToken
deriving DecidableEq, Repr

/-- fcm.rs:102-111 `impl Display for FcmError`. -/
def fcmErrorToString : FcmError → String
  | .notInitialized => "FCM client not initialized"
  | .tokenError e => "OAuth token error: " ++ e
  | .sendError e => "FCM send error: " ++ e
  | .invalidToken => "Invalid FCM device token"

/-- fcm.rs:22-27 `struct CachedToken` (u64 unix seconds as `Nat`). -/
structure CachedToken where
  access_token : String
  expires_at : Nat
  obtained_at : Nat
deriving DecidableEq, Repr

/-- fcm.rs:45-49 `struct TokenResponse` — the parsed
`{access_token, expires_in}` body of the OAuth2 token endpoint. -/
structure TokenResponse where
  access_token : String
  expires_in : Nat
deriving DecidableEq, Repr

/-- fcm.rs:212-318 `fetch_access_token` followed by the cache write of
get_access_token (fcm.rs:202-206): the outcome of the network exchange is
the input `fetch`; on success the new bearer is stored with
`expires_at = now + expires_in` and `obtained_at = now` (fcm.rs:313-317),
on failure the cache is left as it was. -/
def fetchAndStore (cache : Option CachedToken) (now : Nat)
    (fetch : Except String TokenResponse) :
    Except String String × Option CachedToken :=
  match fetch with
  | .error e => (.error e, cache)
  | .ok tr =>
    (.ok tr.access_token,
     some { access_token := tr.access_token,
            expires_at := now + tr.expires_in,
            obtained_at := now })

/-- fcm.rs:155-209 `get_access_token`: return the cached bearer when
`cached.expires_at > now + 60` (fcm.rs:171), otherwise refresh
synchronously and cache the result.  `now` is the clock reading, `fetch`
the outcome of the token-endpoint exchange. -/
def get_access_token (cache : Option CachedToken) (now : Nat)
    (fetch : Except String TokenResponse) :
    Except String String × Option CachedToken :=
  match cache with
  | some cached =>
    if now + 60 < cached.expires_at then (.ok cached.access_token, some cached)
    else fetchAndStore cache now fetch
  | none => fetchAndStore cache now fetch

/-- Outcome of the FCM v1 HTTP exchange for one device
(fcm.rs:402-441): either a transport error or a response with a status
code and a body text. -/
inductive HttpOutcome where
  | transportError (e : String)
  | response (status : Nat) (body : String)
deriving DecidableEq, Repr

/-- reqwest `StatusCode::is_success`: 2xx. -/
def isSuccessStatus (st : Nat) : Bool :=
  decide (200 ≤ st) && decide (st < 300)

/-- Substring test over char lists (Rust `str::contains(&str)`),
checking the pattern as a prefix of every suffix. -/
def containsSub (pat : List Char) : List Char → Bool
  | [] => pat.isEmpty
  | c :: rest => pat.isPrefixOf (c :: rest) || containsSub pat rest

/-- Rust `body.contains(pat)`. -/
def strContains (body pat : String) : Bool :=
  containsSub pat.data body.data

/-- Display of the status in `format!("{}: {}", status, body)`
(fcm.rs:462).  reqwest also appends the canonical reason phrase; no claim
inspects this text beyond which `FcmError` constructor carries it. -/
def statusLine (st : Nat) : String := toString st

/-- fcm.rs:321-463 `FcmClient::send`, response classification
(fcm.rs:410-462), given that a bearer token was obtained: HTTP 2xx → Ok;
non-2xx whose body contains UNREGISTERED or INVALID_ARGUMENT →
InvalidToken; any other non-2xx → SendError(status, body); transport
error → SendError(text). -/
def classifySend (o : HttpOutcome) : Except FcmError Unit :=
  match o with
  | .transportError e => .error (.sendError ("Request failed: " ++ e))
  | .response st body =>
    if isSuccessStatus st then .ok ()
    else if strContains body "UNREGISTERED" || strContains body "INVALID_ARGUMENT" then
      .error .invalidToken
    else .error (.sendError (statusLine st ++ ": " ++ body))

/- ═══════════════════ Delivery engine: worker/processor.rs ═══════════════════ -/

/-- models/notification.rs `struct Notification`, reduced to the fields
the worker control flow reads: `id` (Uuid, `0` = all-zero broadcast id),
`user_id`, `title`.  The remaining fields (message, payload, priority,
…) only flow into envelope bodies, which the claims do not inspect. -/
structure Notification where
  id : Nat
  user_id : Nat
  title : String
deriving DecidableEq, Repr

/-- queries.rs:311-315 `struct UserDevice`. -/
structure UserDevice where
  fcm_token : String
  device_type : String
deriving DecidableEq, Repr

/-- processor.rs:598-603 `enum DeliveryResult`. -/
inductive DeliveryResult where
  | bus
  | push
  | failed
deriving DecidableEq, Repr

/-- One observable outbound call of the engine while processing a row:
sink calls and Store calls, in program order. -/
inductive Event where
  | busPublishUser
  | busPublishTopic
  | fcmSendTopic
  | fetchDevices
  | fcmSend (i : Nat)
  | removeDevice (t : String)
  | markSuccess (id : Nat)
  | markFailure (id : Nat) (reason : String)
deriving DecidableEq, Repr

/-- The bus client (`Option<Arc<BusClient>>`): outcomes of
`publish_to_user` (delivered_to count, processor.rs:396) and of the
broadcast `publish` to topic global_notifications (processor.rs:311). -/
structure BusSink where
  publishUser : Except String Nat
  publishTopic : Except String Nat

/-- The FCM client (`Option<Arc<FcmClient>>`): per-device outcome of
`FcmClient::send` indexed by position in the device list
(processor.rs:475), and the outcome of `send_to_topic("all", …)`
(processor.rs:330). -/
structure FcmSink where
  sendDevice : Nat → Except FcmError Unit
  sendTopic : Except String Unit

/-- The engine's environment for one row: configured sinks and the
outcomes of every external call it may make. -/
structure WorkerEnv where
  bus : Option BusSink
  fcm : Option FcmSink
  /-- outcome of `NotificationQueries::get_user_devices` (processor.rs:436) -/
  devices : Except String (List UserDevice)
  /-- outcome of `NotificationQueries::remove_device` per token; the code
  only logs an error here (processor.rs:494-496) -/
  removeRes : String → Except String Unit
  /-- outcome of `NotificationQueries::mark_success`; the wrapper
  (processor.rs:533-551) only logs it -/
  markSuccessRes : Except String Bool
  /-- outcome of `NotificationQueries::mark_failure`; the wrapper
  (processor.rs:555-595) only logs it -/
  markFailureRes : Except String Bool

/-- processor.rs:462-511, the per-device loop of `send_via_push`:
carries the running device index `i`, `success_count` and `last_error`;
returns the final counts and the emitted calls.  `Err(InvalidToken)`
leads to a `remove_device` call whose result `rm` is only logged;
any other `Err(e)` sets `last_error = Some(e.to_string())`. -/
def pushLoop (send : Nat → Except FcmError Unit) (rm : String → Except String Unit) :
    List UserDevice → Nat → Nat → Option String →
    Nat × Option String × List Event
  | [], _, sc, le => (sc, le, [])
  | d :: rest, i, sc, le =>
    match send i with
    | .ok _ =>
      let r := pushLoop send rm rest (i + 1) (sc + 1) le
      (r.1, r.2.1, .fcmSend i :: r.2.2)
    | .error .invalidToken =>
      let r := pushLoop send rm rest (i + 1) sc le
      (r.1, r.2.1, .fcmSend i :: .removeDevice d.fcm_token :: r.2.2)
    | .error e =>
      let r := pushLoop send rm rest (i + 1) sc (some (fcmErrorToString e))
      (r.1, r.2.1, .fcmSend i :: r.2.2)

/-- processor.rs:426-529 `send_via_push`: unconfigured sink → Err("FCM
not configured"); device-fetch failure → Err("Failed to get devices: …");
empty device list → Err("No registered devices"); otherwise run the
per-device loop and succeed iff `success_count > 0`, else Err(last_error
or "All push attempts failed"). -/
def send_via_push (env : WorkerEnv) : Except String Nat × List Event :=
  match env.fcm with
  | none => (.error "FCM not configured", [])
  | some f =>
    match env.devices with
    | .error e => (.error ("Failed to get devices: " ++ e), [.fetchDevices])
    | .ok devices =>
      if devices.isEmpty then (.error "No registered devices", [.fetchDevices])
      else
        let r := pushLoop f.sendDevice env.removeRes devices 0 0 none
        if r.1 > 0 then (.ok r.1, .fetchDevices :: r.2.2)
        else (.error (r.2.1.getD "All push attempts failed"), .fetchDevices :: r.2.2)

/-- The push tail of `process_one` (processor.rs:261-287): record the
outcome of `send_via_push` through mark_success / mark_failure. -/
def pushPath (env : WorkerEnv) (n : Notification) : DeliveryResult × List Event :=
  let r := send_via_push env
  match r.1 with
  | .ok _ => (.push, r.2 ++ [.markSuccess n.id])
  | .error e => (.failed, r.2 ++ [.markFailure n.id e])

/-- processor.rs:292-365 `process_broadcast`: publish to bus topic
global_notifications when the bus is configured, send to FCM topic "all"
when FCM is configured, then always `mark_success`; the returned result
is a generic success when either sink succeeded, `Failed` otherwise. -/
def process_broadcast (env : WorkerEnv) (n : Notification) :
    DeliveryResult × List Event :=
  let (bus_success, busEvs) :=
    match env.bus with
    | none => (false, ([] : List Event))
    | some b =>
      match b.publishTopic with
      | .ok _ => (true, [Event.busPublishTopic])
      | .error _ => (false, [Event.busPublishTopic])
  let (push_success, pushEvs) :=
    match env.fcm with
    | none => (false, ([] : List Event))
    | some f =>
      match f.sendTopic with
      | .ok _ => (true, [Event.fcmSendTopic])
      | .error _ => (false, [Event.fcmSendTopic])
  ((if bus_success || push_success then DeliveryResult.bus else DeliveryResult.failed),
   busEvs ++ pushEvs ++ [Event.markSuccess n.id])

/-- processor.rs:197-288 `process_one`: broadcast rows go to
`process_broadcast`; otherwise try the bus first when configured
(`delivered_to > 0` → mark_success, done; zero fan-out or transport
error → fall through), then the push path. -/
def process_one (env : WorkerEnv) (n : Notification) :
    DeliveryResult × List Event :=
  if n.user_id = 0 then process_broadcast env n
  else
    match env.bus with
    | some b =>
      match b.publishUser with
      | .ok delivered_to =>
        if delivered_to > 0 then
          (.bus, [.busPublishUser, .markSuccess n.id])
        else
          ((pushPath env n).1, .busPublishUser :: (pushPath env n).2)
      | .error _ =>
        ((pushPath env n).1, .busPublishUser :: (pushPath env n).2)
    | none => pushPath env n

/- ═══════════════════ Auxiliary definitions used by the theorems ═══ -/

/-- `true` on an `Except.ok` — the boolean the broadcast procedure stores
in its `bus_success` / `push_success` flags. -/
def exceptOk {α β : Type} : Except α β → Bool
  | .ok _ => true
  | .error _ => false

/-- Recognizes a `mark_failure` Store call in an event trace. -/
def isMarkFailure : Event → Bool
  | .markFailure _ _ => true
  | _ => false

/-- Closed form of `success_count` after the per-device loop: how many of
the outcomes at indices `i, i+1, …, i+n-1` are `Ok`. -/
def countSuccesses (send : Nat → Except FcmError Unit) : Nat → Nat → Nat
  | _, 0 => 0
  | i, n + 1 =>
    (match send i with
     | .ok _ => 1
     | .error _ => 0) + countSuccesses send (i + 1) n

/-- Closed form of `last_error` after the per-device loop: the display
text of the last outcome among indices `i, …, i+n-1` that is an error
other than `InvalidToken`, starting from `acc`. -/
def lastErrAux (send : Nat → Except FcmError Unit) : Nat → Nat → Option String → Option String
  | _, 0, acc => acc
  | i, n + 1, acc =>
    lastErrAux send (i + 1) n
      (match send i with
       | .ok _ => acc
       | .error .invalidToken => acc
       | .error e => some (fcmErrorToString e))

/-- A pending row whose scheduled delivery time (100) is in the future
relative to the clock reading 0. -/
def futureRow : NotifRow :=
  { notification_id := 1, user_id := 7, title := "hi",
    is_processed := false, deliver_at := 100, created_at := 0 }

/-- Environment where both sinks are configured and both broadcast sends
fail. -/
def bothFailEnv : WorkerEnv :=
  { bus := some { publishUser := .error "bus down", publishTopic := .error "bus down" },
    fcm := some { sendDevice := fun _ => .ok (), sendTopic := .error "fcm down" },
    devices := .ok [],
    removeRes := fun _ => .ok (),
    markSuccessRes := .ok true,
    markFailureRes := .ok false }

/-- Environment where both sinks are configured and both broadcast sends
succeed. -/
def bcastEnvW : WorkerEnv :=
  { bus := some { publishUser := .ok 3, publishTopic := .ok 3 },
    fcm := some { sendDevice := fun _ => .ok (), sendTopic := .ok () },
    devices := .ok [],
    removeRes := fun _ => .ok (),
    markSuccessRes := .ok true,
    markFailureRes := .ok false }

/-- Environment where the bus is configured and reports fan-out 2. -/
def busHitEnv : WorkerEnv :=
  { bus := some { publishUser := .ok 2, publishTopic := .ok 0 },
    fcm := none,
    devices := .ok [],
    removeRes := fun _ => .ok (),
    markSuccessRes := .ok true,
    markFailureRes := .ok true }

/-- Environment with neither sink configured. -/
def noFcmEnv : WorkerEnv :=
  { bus := none, fcm := none, devices := .ok [],
    removeRes := fun _ => .ok (),
    markSuccessRes := .ok true, markFailureRes := .ok true }

/-- Per-device outcomes: the first device errors transiently, the rest
succeed. -/
def sendW : Nat → Except FcmError Unit :=
  fun i => if i = 0 then .error (.sendError "boom") else .ok ()

/-- Environment with two registered devices, outcomes `sendW`. -/
def pushEnvW : WorkerEnv :=
  { bus := none,
    fcm := some { sendDevice := sendW, sendTopic := .ok () },
    devices := .ok [{ fcm_token := "t1", device_type := "android" },
                    { fcm_token := "t2", device_type := "ios" }],
    removeRes := fun _ => .ok (),
    markSuccessRes := .ok true, markFailureRes := .ok false }

/-- Per-device outcomes: every send reports an invalid token. -/
def invalidSendW : Nat → Except FcmError Unit :=
  fun _ => .error .invalidToken

/-- Environment with one registered device whose token is reported
invalid, and whose `remove_device` call fails. -/
def invalidEnvW : WorkerEnv :=
  { bus := none,
    fcm := some { sendDevice := invalidSendW, sendTopic := .ok () },
    devices := .ok [{ fcm_token := "tokA", device_type := "android" }],
    removeRes := fun _ => .error "db down",
    markSuccessRes := .ok true, markFailureRes := .ok false }

/- ═══════════════════ Theorems ═══════════════════ -/

/-- C1: `fetch_unprocessed` evaluated at the failing input: a single
pending row whose `deliver_at` (100) lies strictly in the future of the
clock (0) is nevertheless returned by the batch-claim query, because the
WHERE clause (queries.rs:35) restricts only on `is_processed`.  The
repository's own test `test_scheduled_notification_delivery`
(tests/integration_test.rs:57-95) asserts such a row must not be
processed before its delivery time. -/
theorem fetch_unprocessed_returns_future_scheduled_row :
    futureRow.is_processed = false ∧
    0 < futureRow.deliver_at ∧
    fetch_unprocessed [futureRow] 10 = [futureRow] := by
  refine ⟨rfl, by decide, rfl⟩

/-- C3 counterexample: the wake channel created at main.rs:101 has
capacity 10, not 1, and two wake signals delivered into an empty channel
between cycles produce two extra cycles, not one. -/
theorem wake_channel_not_capacity_one :
    ¬ (wakeChannelCapacity = 1 ∨ extraCycles (deliverWakes 2 0) = 1) := by
  decide

/-- Delivering `n` wakes into a channel holding `q ≤ capacity` pending
signals leaves `min (q + n) capacity` pending. -/
theorem deliverWakes_eq (n q : Nat) (h : q ≤ wakeChannelCapacity) :
    deliverWakes n q = min (q + n) wakeChannelCapacity := by
  induction n generalizing q with
  | zero =>
    simp only [deliverWakes]
    omega
  | succ n ih =>
    simp only [deliverWakes, trySendWake]
    by_cases hq : q < wakeChannelCapacity
    · rw [if_pos hq, ih (q + 1) (by omega)]
      omega
    · rw [if_neg hq, ih q h]
      omega

/-- C3 amended: the wake channel has capacity 10 and drops the newest
signal when full, so a wake signal delivered `N` times between cycles
produces exactly `min N 10` extra processing cycles; coalescing happens
only beyond 10 pending signals. -/
theorem wake_signals_extra_cycles (n : Nat) :
    extraCycles (deliverWakes n 0) = min n wakeChannelCapacity := by
  have h := deliverWakes_eq n 0 (by decide)
  simpa [extraCycles] using h

/-- C8 counterexample: the masking helper joins the kept pieces with
three ASCII dots, not the single character `…`, and it is not total over
arbitrary UTF-8 input: on `"aaaaa€xxxxxxx"` (byte length 15) the slice
`&token[..6]` splits the three-byte `€` and panics (modelled as `none`). -/
theorem mask_token_counterexample :
    mask_token "abcdefghijklm".data = some "abcdef...jklm" ∧
    ("abcdef...jklm" : String) ≠ "abcdef…jklm" ∧
    mask_token "aaaaa€xxxxxxx".data = none := by
  refine ⟨rfl, by decide, rfl⟩

/-- An ASCII scalar occupies one UTF-8 byte. -/
theorem utf8Size_ascii {c : Char} (h : c.toNat < 128) : utf8Size c = 1 := by
  simp only [utf8Size]
  rw [if_pos (by omega)]

/-- On ASCII input the byte length equals the character count. -/
theorem byteLen_ascii {s : List Char} (h : ∀ c ∈ s, c.toNat < 128) :
    byteLen s = s.length := by
  induction s with
  | nil => rfl
  | cons c cs ih =>
    have hc : utf8Size c = 1 := utf8Size_ascii (h c (List.mem_cons_self c cs))
    simp only [byteLen, List.map_cons, List.sum_cons, List.length_cons] at *
    rw [hc, ih (fun d hd => h d (List.mem_cons_of_mem c hd))]
    omega

/-- On ASCII input a byte-prefix slice is the character prefix. -/
theorem takeBytes_ascii {s : List Char} (h : ∀ c ∈ s, c.toNat < 128) :
    ∀ k, k ≤ s.length → takeBytes s k = some (s.take k) := by
  induction s with
  | nil =>
    intro k hk
    have hk0 : k = 0 := by simpa using hk
    subst hk0
    rfl
  | cons c cs ih =>
    intro k hk
    cases k with
    | zero => rfl
    | succ k =>
      have hc : utf8Size c = 1 := utf8Size_ascii (h c (List.mem_cons_self c cs))
      simp only [takeBytes, hc]
      rw [if_pos (by omega)]
      have : k + 1 - 1 = k := by omega
      rw [this, ih (fun d hd => h d (List.mem_cons_of_mem c hd)) k
        (by simpa using Nat.lt_succ_iff.mp (Nat.lt_of_lt_of_le (Nat.lt_succ_self k) hk))]
      rfl

/-- On ASCII input a byte-suffix slice is the character suffix. -/
theorem dropBytes_ascii {s : List Char} (h : ∀ c ∈ s, c.toNat < 128) :
    ∀ k, k ≤ s.length → dropBytes s k = some (s.drop k) := by
  induction s with
  | nil =>
    intro k hk
    have hk0 : k = 0 := by simpa using hk
    subst hk0
    rfl
  | cons c cs ih =>
    intro k hk
    cases k with
    | zero => rfl
    | succ k =>
      have hc : utf8Size c = 1 := utf8Size_ascii (h c (List.mem_cons_self c cs))
      simp only [dropBytes, hc]
      rw [if_pos (by omega)]
      have : k + 1 - 1 = k := by omega
      rw [this, ih (fun d hd => h d (List.mem_cons_of_mem c hd)) k
        (by simpa using Nat.lt_succ_iff.mp (Nat.lt_of_lt_of_le (Nat.lt_succ_self k) hk))]
      congr 1

/-- C8 amended: the masking helper works on UTF-8 **bytes** and joins the
kept pieces with three ASCII dots `...`; it is defined whenever the byte
indices fall on character boundaries — in particular on every ASCII
token, where it keeps the first 6 and last 4 characters joined by `...`
when the length exceeds 12, the first 4 characters followed by `...` when
the length exceeds 4, and returns four asterisks otherwise. -/
theorem mask_token_ascii_spec (s : List Char) (h : ∀ c ∈ s, c.toNat < 128) :
    mask_token s = some (
      if s.length > 12 then
        String.mk (s.take 6) ++ "..." ++ String.mk (s.drop (s.length - 4))
      else if s.length > 4 then
        String.mk (s.take 4) ++ "..."
      else "****") := by
  simp only [mask_token, byteLen_ascii h]
  by_cases h12 : s.length > 12
  · rw [if_pos h12, if_pos h12,
      takeBytes_ascii h 6 (by omega),
      dropBytes_ascii h (s.length - 4) (by omega)]
  · rw [if_neg h12, if_neg h12]
    by_cases h4 : s.length > 4
    · rw [if_pos h4, if_pos h4, takeBytes_ascii h 4 (by omega)]
    · rw [if_neg h4, if_neg h4]

/-- Witness for the amended C8 statement at a concrete ASCII token. -/
theorem mask_token_ascii_spec_witness :
    mask_token "abcdefghijklmn".data = some (
      if "abcdefghijklmn".data.length > 12 then
        String.mk ("abcdefghijklmn".data.take 6) ++ "..." ++
          String.mk ("abcdefghijklmn".data.drop ("abcdefghijklmn".data.length - 4))
      else if "abcdefghijklmn".data.length > 4 then
        String.mk ("abcdefghijklmn".data.take 4) ++ "..."
      else "****") :=
  mask_token_ascii_spec "abcdefghijklmn".data (by decide)

/-- C7: the bearer-cache read path returns the cached access_token
exactly when the cache holds a bearer with more than 60 seconds of
remaining lifetime, leaving the cache untouched; otherwise it performs
the synchronous fetch, and a successful fetch is stored with
`obtained_at = now` and `expires_at = now + expires_in`, while a failed
fetch leaves the cache unchanged. -/
theorem get_access_token_cache_policy
    (cache : Option CachedToken) (now : Nat) (fetch : Except String TokenResponse) :
    (∀ c, cache = some c → 60 < c.expires_at - now →
      get_access_token cache now fetch = (.ok c.access_token, cache)) ∧
    ((cache = none ∨ ∃ c, cache = some c ∧ c.expires_at - now ≤ 60) →
      ∀ tr, fetch = .ok tr →
        get_access_token cache now fetch =
          (.ok tr.access_token,
           some { access_token := tr.access_token,
                  expires_at := now + tr.expires_in,
                  obtained_at := now })) ∧
    ((cache = none ∨ ∃ c, cache = some c ∧ c.expires_at - now ≤ 60) →
      ∀ e, fetch = .error e →
        get_access_token cache now fetch = (.error e, cache)) := by
  refine ⟨?_, ?_, ?_⟩
  · rintro c rfl hfresh
    have hlt : now + 60 < c.expires_at := by omega
    simp [get_access_token, hlt]
  · rintro h tr rfl
    rcases h with rfl | ⟨c, rfl, hstale⟩
    · simp [get_access_token, fetchAndStore]
    · have hge : ¬ now + 60 < c.expires_at := by omega
      simp [get_access_token, hge, fetchAndStore]
  · rintro h e rfl
    rcases h with rfl | ⟨c, rfl, hstale⟩
    · simp [get_access_token, fetchAndStore]
    · have hge : ¬ now + 60 < c.expires_at := by omega
      simp [get_access_token, hge, fetchAndStore]

/-- Witness for C7: a fresh cached bearer (expires in 900 s) is returned
unchanged; a stale one (expires in 30 s) triggers the fetch-and-store. -/
theorem get_access_token_cache_policy_witness :
    get_access_token (some ⟨"cached", 1000, 0⟩) 100 (.ok ⟨"fresh", 3600⟩) =
      (.ok "cached", some ⟨"cached", 1000, 0⟩) ∧
    get_access_token (some ⟨"cached", 130, 0⟩) 100 (.ok ⟨"fresh", 3600⟩) =
      (.ok "fresh", some ⟨"fresh", 3700, 100⟩) := by
  constructor
  · exact (get_access_token_cache_policy (some ⟨"cached", 1000, 0⟩) 100
      (.ok ⟨"fresh", 3600⟩)).1 ⟨"cached", 1000, 0⟩ rfl (by decide)
  · exact (get_access_token_cache_policy (some ⟨"cached", 130, 0⟩) 100
      (.ok ⟨"fresh", 3600⟩)).2.1 (Or.inr ⟨⟨"cached", 130, 0⟩, rfl, by decide⟩)
      ⟨"fresh", 3600⟩ rfl

/-- C2 counterexample: a broadcast row processed while both configured
sinks error is marked success and **no** failure call (the claimed
TransientFail record) is made for it — the trace holds exactly the two
sink attempts and one `mark_success`, and the `Failed` result only feeds
the batch statistics. -/
theorem broadcast_both_fail_no_failure_call :
    process_broadcast bothFailEnv ⟨5, 0, "sys"⟩ =
      (.failed, [.busPublishTopic, .fcmSendTopic, .markSuccess 5]) ∧
    ((process_broadcast bothFailEnv ⟨5, 0, "sys"⟩).2.all
      fun e => !isMarkFailure e) = true := by
  refine ⟨rfl, rfl⟩

/-- C2 amended: with both sinks configured, a broadcast attempts the bus
topic publish and the push topic send independently, always calls
`mark_success` and never `mark_failure`; the returned result is a generic
success when either sink succeeded and `Failed` (statistics only)
otherwise. -/
theorem process_broadcast_characterization (env : WorkerEnv) (n : Notification)
    (b : BusSink) (f : FcmSink) (hb : env.bus = some b) (hf : env.fcm = some f) :
    process_broadcast env n =
      ((if exceptOk b.publishTopic || exceptOk f.sendTopic
        then DeliveryResult.bus else DeliveryResult.failed),
       [.busPublishTopic, .fcmSendTopic, .markSuccess n.id]) ∧
    Event.markSuccess n.id ∈ (process_broadcast env n).2 ∧
    ((process_broadcast env n).2.all fun e => !isMarkFailure e) = true := by
  have hchar : process_broadcast env n =
      ((if exceptOk b.publishTopic || exceptOk f.sendTopic
        then DeliveryResult.bus else DeliveryResult.failed),
       [.busPublishTopic, .fcmSendTopic, .markSuccess n.id]) := by
    simp only [process_broadcast, hb, hf]
    cases b.publishTopic <;> cases f.sendTopic <;> simp [exceptOk]
  refine ⟨hchar, ?_, ?_⟩
  · rw [hchar]
    simp
  · rw [hchar]
    simp [isMarkFailure]

/-- Witness for the amended C2 at a concrete environment where both
broadcast sends succeed. -/
theorem process_broadcast_characterization_witness :
    process_broadcast bcastEnvW ⟨9, 0, "t"⟩ =
      ((if exceptOk (Except.ok 3 : Except String Nat) ||
           exceptOk (Except.ok () : Except String Unit)
        then DeliveryResult.bus else DeliveryResult.failed),
       [.busPublishTopic, .fcmSendTopic, .markSuccess 9]) :=
  (process_broadcast_characterization bcastEnvW ⟨9, 0, "t"⟩
    { publishUser := .ok 3, publishTopic := .ok 3 }
    { sendDevice := fun _ => .ok (), sendTopic := .ok () } rfl rfl).1

/-- The per-device loop computes `success_count` and `last_error` as the
closed forms `countSuccesses` and `lastErrAux` over its index range. -/
theorem pushLoop_count_last (send : Nat → Except FcmError Unit)
    (rm : String → Except String Unit) :
    ∀ (ds : List UserDevice) (i sc : Nat) (le : Option String),
      (pushLoop send rm ds i sc le).1 = sc + countSuccesses send i ds.length ∧
      (pushLoop send rm ds i sc le).2.1 = lastErrAux send i ds.length le := by
  intro ds
  induction ds with
  | nil =>
    intro i sc le
    simp [pushLoop, countSuccesses, lastErrAux]
  | cons d rest ih =>
    intro i sc le
    cases hsend : send i with
    | ok u =>
      obtain ⟨h1, h2⟩ := ih (i + 1) (sc + 1) le
      simp only [pushLoop, hsend, List.length_cons, countSuccesses, lastErrAux]
      refine ⟨?_, h2⟩
      rw [h1]
      omega
    | error e =>
      cases e with
      | invalidToken =>
        obtain ⟨h1, h2⟩ := ih (i + 1) sc le
        simp only [pushLoop, hsend, List.length_cons, countSuccesses, lastErrAux]
        refine ⟨?_, h2⟩
        rw [h1]
        omega
      | notInitialized =>
        obtain ⟨h1, h2⟩ := ih (i + 1) sc (some (fcmErrorToString .notInitialized))
        simp only [pushLoop, hsend, List.length_cons, countSuccesses, lastErrAux]
        refine ⟨?_, h2⟩
        rw [h1]
        omega
      | tokenError s =>
        obtain ⟨h1, h2⟩ := ih (i + 1) sc (some (fcmErrorToString (.tokenError s)))
        simp only [pushLoop, hsend, List.length_cons, countSuccesses, lastErrAux]
        refine ⟨?_, h2⟩
        rw [h1]
        omega
      | sendError s =>
        obtain ⟨h1, h2⟩ := ih (i + 1) sc (some (fcmErrorToString (.sendError s)))
        simp only [pushLoop, hsend, List.length_cons, countSuccesses, lastErrAux]
        refine ⟨?_, h2⟩
        rw [h1]
        omega

/-- The per-device loop never reads the result of `remove_device`
(processor.rs:494-496 only logs it): its whole output is independent of
those results. -/
theorem pushLoop_rm_indep (send : Nat → Except FcmError Unit)
    (rm1 rm2 : String → Except String Unit) :
    ∀ (ds : List UserDevice) (i sc : Nat) (le : Option String),
      pushLoop send rm1 ds i sc le = pushLoop send rm2 ds i sc le := by
  intro ds
  induction ds with
  | nil => intro i sc le; rfl
  | cons d rest ih =>
    intro i sc le
    cases hsend : send i with
    | ok u => simp only [pushLoop, hsend, ih]
    | error e => cases e <;> simp only [pushLoop, hsend, ih]

/-- Every device of the list gets exactly its send attempt: the loop
trace holds `fcmSend (i + j)` for every position `j`. -/
theorem pushLoop_fcmSend_mem (send : Nat → Except FcmError Unit)
    (rm : String → Except String Unit) :
    ∀ (ds : List UserDevice) (i sc : Nat) (le : Option String) (j : Nat),
      j < ds.length → Event.fcmSend (i + j) ∈ (pushLoop send rm ds i sc le).2.2 := by
  intro ds
  induction ds with
  | nil =>
    intro i sc le j hj
    simp at hj
  | cons d rest ih =>
    intro i sc le j hj
    cases j with
    | zero =>
      cases hsend : send i with
      | ok u => simp [pushLoop, hsend]
      | error e => cases e <;> simp [pushLoop, hsend]
    | succ j =>
      have hj2 : j < rest.length := by
        simp only [List.length_cons] at hj
        omega
      have harith : i + (j + 1) = (i + 1) + j := by omega
      rw [harith]
      cases hsend : send i with
      | ok u =>
        simp only [pushLoop, hsend]
        exact List.mem_cons_of_mem _ (ih (i + 1) (sc + 1) le j hj2)
      | error e =>
        cases e with
        | invalidToken =>
          simp only [pushLoop, hsend]
          exact List.mem_cons_of_mem _ (List.mem_cons_of_mem _ (ih (i + 1) sc le j hj2))
        | notInitialized =>
          simp only [pushLoop, hsend]
          exact List.mem_cons_of_mem _ (ih (i + 1) sc _ j hj2)
        | tokenError s =>
          simp only [pushLoop, hsend]
          exact List.mem_cons_of_mem _ (ih (i + 1) sc _ j hj2)
        | sendError s =>
          simp only [pushLoop, hsend]
          exact List.mem_cons_of_mem _ (ih (i + 1) sc _ j hj2)

/-- When the send outcome at position `j` is `InvalidToken`, the loop
trace holds the `remove_device` call for that device's token. -/
theorem pushLoop_removeDevice_mem (send : Nat → Except FcmError Unit)
    (rm : String → Except String Unit) :
    ∀ (ds : List UserDevice) (i sc : Nat) (le : Option String) (j : Fin ds.length),
      send (i + j.val) = .error .invalidToken →
      Event.removeDevice (ds.get j).fcm_token ∈ (pushLoop send rm ds i sc le).2.2 := by
  intro ds
  induction ds with
  | nil =>
    intro i sc le j
    exact absurd j.isLt (by simp)
  | cons d rest ih =>
    intro i sc le j hinv
    rcases j with ⟨jv, hjv⟩
    cases jv with
    | zero =>
      have hsend : send i = .error .invalidToken := by simpa using hinv
      simp [pushLoop, hsend, List.get]
    | succ jv =>
      have hjv2 : jv < rest.length := by
        simp only [List.length_cons] at hjv
        omega
      have hinv2 : send ((i + 1) + jv) = Except.error FcmError.invalidToken := by
        have harith : (i + 1) + jv = i + (jv + 1) := by omega
        rw [harith]
        exact hinv
      have hget : ((d :: rest).get ⟨jv + 1, hjv⟩) = rest.get ⟨jv, hjv2⟩ := rfl
      rw [hget]
      cases hsend : send i with
      | ok u =>
        simp only [pushLoop, hsend]
        exact List.mem_cons_of_mem _ (ih (i + 1) (sc + 1) le ⟨jv, hjv2⟩ hinv2)
      | error e =>
        cases e with
        | invalidToken =>
          simp only [pushLoop, hsend]
          exact List.mem_cons_of_mem _
            (List.mem_cons_of_mem _ (ih (i + 1) sc le ⟨jv, hjv2⟩ hinv2))
        | notInitialized =>
          simp only [pushLoop, hsend]
          exact List.mem_cons_of_mem _ (ih (i + 1) sc _ ⟨jv, hjv2⟩ hinv2)
        | tokenError s =>
          simp only [pushLoop, hsend]
          exact List.mem_cons_of_mem _ (ih (i + 1) sc _ ⟨jv, hjv2⟩ hinv2)
        | sendError s =>
          simp only [pushLoop, hsend]
          exact List.mem_cons_of_mem _ (ih (i + 1) sc _ ⟨jv, hjv2⟩ hinv2)

/-- The loop trace consists solely of send attempts and device
removals. -/
theorem pushLoop_events_shape (send : Nat → Except FcmError Unit)
    (rm : String → Except String Unit) :
    ∀ (ds : List UserDevice) (i sc : Nat) (le : Option String),
      ∀ e ∈ (pushLoop send rm ds i sc le).2.2,
        (∃ j, e = Event.fcmSend j) ∨ (∃ t, e = Event.removeDevice t) := by
  intro ds
  induction ds with
  | nil =>
    intro i sc le e he
    simp [pushLoop] at he
  | cons d rest ih =>
    intro i sc le e he
    cases hsend : send i with
    | ok u =>
      simp only [pushLoop, hsend] at he
      rcases List.mem_cons.mp he with rfl | he2
      · exact Or.inl ⟨i, rfl⟩
      · exact ih (i + 1) (sc + 1) le e he2
    | error err =>
      cases err with
      | invalidToken =>
        simp only [pushLoop, hsend] at he
        rcases List.mem_cons.mp he with rfl | he2
        · exact Or.inl ⟨i, rfl⟩
        · rcases List.mem_cons.mp he2 with rfl | he3
          · exact Or.inr ⟨d.fcm_token, rfl⟩
          · exact ih (i + 1) sc le e he3
      | notInitialized =>
        simp only [pushLoop, hsend] at he
        rcases List.mem_cons.mp he with rfl | he2
        · exact Or.inl ⟨i, rfl⟩
        · exact ih (i + 1) sc _ e he2
      | tokenError s =>
        simp only [pushLoop, hsend] at he
        rcases List.mem_cons.mp he with rfl | he2
        · exact Or.inl ⟨i, rfl⟩
        · exact ih (i + 1) sc _ e he2
      | sendError s =>
        simp only [pushLoop, hsend] at he
        rcases List.mem_cons.mp he with rfl | he2
        · exact Or.inl ⟨i, rfl⟩
        · exact ih (i + 1) sc _ e he2

/-- The push path emits only the device fetch, send attempts and device
removals — never a Store outcome call. -/
theorem send_via_push_events_shape (env : WorkerEnv) :
    ∀ e ∈ (send_via_push env).2,
      e = Event.fetchDevices ∨ (∃ j, e = Event.fcmSend j) ∨
        (∃ t, e = Event.removeDevice t) := by
  intro e he
  rcases env with ⟨bus, fcm, dev, rm, ms, mf⟩
  rcases fcm with _ | f
  · simp [send_via_push] at he
  · rcases dev with derr | ds
    · simp [send_via_push] at he
      simp [he]
    · by_cases hemp : ds.isEmpty
      · simp [send_via_push, hemp] at he
        simp [he]
      · simp only [send_via_push, hemp, Bool.false_eq_true, if_false] at he
        by_cases hpos : (pushLoop f.sendDevice rm ds 0 0 none).1 > 0
        · rw [if_pos hpos] at he
          rcases List.mem_cons.mp he with rfl | he2
          · exact Or.inl rfl
          · exact Or.inr (pushLoop_events_shape f.sendDevice rm ds 0 0 none e he2)
        · rw [if_neg hpos] at he
          rcases List.mem_cons.mp he with rfl | he2
          · exact Or.inl rfl
          · exact Or.inr (pushLoop_events_shape f.sendDevice rm ds 0 0 none e he2)

/-- `send_via_push` is independent of the `remove_device` call results
(constructor form). -/
theorem send_via_push_rm_aux (bus : Option BusSink) (fcm : Option FcmSink)
    (dev : Except String (List UserDevice)) (rm0 rm : String → Except String Unit)
    (ms mf : Except String Bool) :
    send_via_push ⟨bus, fcm, dev, rm, ms, mf⟩ =
      send_via_push ⟨bus, fcm, dev, rm0, ms, mf⟩ := by
  rcases fcm with _ | f
  · rfl
  · rcases dev with derr | ds
    · rfl
    · simp only [send_via_push]
      rw [pushLoop_rm_indep f.sendDevice rm rm0 ds 0 0 none]

/-- `process_one` is independent of the `remove_device` call results
(constructor form). -/
theorem process_one_rm_aux (bus : Option BusSink) (fcm : Option FcmSink)
    (dev : Except String (List UserDevice)) (rm0 rm : String → Except String Unit)
    (ms mf : Except String Bool) (n : Notification) :
    process_one ⟨bus, fcm, dev, rm, ms, mf⟩ n =
      process_one ⟨bus, fcm, dev, rm0, ms, mf⟩ n := by
  have hp : pushPath ⟨bus, fcm, dev, rm, ms, mf⟩ n =
      pushPath ⟨bus, fcm, dev, rm0, ms, mf⟩ n := by
    simp only [pushPath, send_via_push_rm_aux bus fcm dev rm0 rm ms mf]
  by_cases hb0 : n.user_id = 0
  · simp only [process_one, if_pos hb0]
    rfl
  · simp only [process_one, if_neg hb0]
    rcases bus with _ | b
    · exact hp
    · rcases b.publishUser with k | e
      · simp only [hp]
      · simp only [hp]

/-- C5: the push path returns TransientFail("FCM not configured") when
the sink is unconfigured and TransientFail("No registered devices") on an
empty device list; otherwise, after the whole device loop, it succeeds
iff at least one per-device send succeeded (and the caller then calls
mark_success), else it fails with the last SendError text or "All push
attempts failed"; a lone InvalidToken device yields the default text
because InvalidToken never sets `last_error`. -/
theorem send_via_push_outcome :
    (∀ env, env.fcm = none → send_via_push env = (.error "FCM not configured", [])) ∧
    (∀ env f, env.fcm = some f → env.devices = .ok [] →
      send_via_push env = (.error "No registered devices", [.fetchDevices])) ∧
    (∀ env f ds, env.fcm = some f → env.devices = .ok ds → ds ≠ [] →
      (send_via_push env).1 =
        (if 0 < countSuccesses f.sendDevice 0 ds.length
         then .ok (countSuccesses f.sendDevice 0 ds.length)
         else .error ((lastErrAux f.sendDevice 0 ds.length none).getD
            "All push attempts failed"))) ∧
    (∀ env f d, env.fcm = some f → env.devices = .ok [d] →
      f.sendDevice 0 = .error .invalidToken →
      (send_via_push env).1 = .error "All push attempts failed") ∧
    (∀ env n k, (send_via_push env).1 = .ok k →
      pushPath env n = (.push, (send_via_push env).2 ++ [.markSuccess n.id])) ∧
    (∀ env n msg, (send_via_push env).1 = .error msg →
      pushPath env n = (.failed, (send_via_push env).2 ++ [.markFailure n.id msg])) := by
  refine ⟨?_, ?_, ?_, ?_, ?_, ?_⟩
  · intro env hf
    simp [send_via_push, hf]
  · intro env f hf hd
    simp [send_via_push, hf, hd]
  · intro env f ds hf hd hne
    obtain ⟨h1, h2⟩ := pushLoop_count_last f.sendDevice env.removeRes ds 0 0 none
    have hemp : ds.isEmpty = false := by
      cases ds with
      | nil => exact absurd rfl hne
      | cons x xs => rfl
    simp only [send_via_push, hf, hd, hemp, Bool.false_eq_true, if_false, h1, h2,
      Nat.zero_add]
    by_cases hc : 0 < countSuccesses f.sendDevice 0 ds.length
    · rw [if_pos hc, if_pos hc]
    · rw [if_neg hc, if_neg hc]
  · intro env f d hf hd hinv
    simp [send_via_push, hf, hd, pushLoop, hinv]
  · intro env n k hok
    simp [pushPath, hok]
  · intro env n msg herr
    simp [pushPath, herr]

/-- Witness for C5: with two devices where the first send errors and the
second succeeds the outcome is `Ok 1`; with FCM unconfigured the outcome
is the configuration failure; with a single invalid-token device the
outcome is the default failure text. -/
theorem send_via_push_outcome_witness :
    (send_via_push pushEnvW).1 = .ok 1 ∧
    send_via_push noFcmEnv = (.error "FCM not configured", []) ∧
    (send_via_push invalidEnvW).1 = .error "All push attempts failed" := by
  obtain ⟨h1, h2, h3, h4, h5, h6⟩ := send_via_push_outcome
  refine ⟨?_, h1 noFcmEnv rfl, ?_⟩
  · have h := h3 pushEnvW { sendDevice := sendW, sendTopic := .ok () }
      [{ fcm_token := "t1", device_type := "android" },
       { fcm_token := "t2", device_type := "ios" }] rfl rfl (by simp)
    rw [h]
    rfl
  · exact h4 invalidEnvW { sendDevice := invalidSendW, sendTopic := .ok () }
      { fcm_token := "tokA", device_type := "android" } rfl rfl rfl

/-- C4: for a non-broadcast row with the bus configured, a publish
reporting `delivered_to > 0` ends processing with success via bus — one
`mark_success` call, no device lookup and no FCM send; a publish
reporting zero fan-out, or failing with a transport error, falls through
to the push path. -/
theorem process_one_bus_first (env : WorkerEnv) (n : Notification) (b : BusSink)
    (hn : n.user_id ≠ 0) (hb : env.bus = some b) :
    (∀ k, b.publishUser = .ok k → 0 < k →
      process_one env n = (.bus, [.busPublishUser, .markSuccess n.id]) ∧
      Event.fetchDevices ∉ (process_one env n).2 ∧
      ∀ i, Event.fcmSend i ∉ (process_one env n).2) ∧
    ((b.publishUser = .ok 0 ∨ ∃ e, b.publishUser = .error e) →
      process_one env n = ((pushPath env n).1, .busPublishUser :: (pushPath env n).2)) := by
  constructor
  · intro k hk hkpos
    have hchar : process_one env n = (.bus, [.busPublishUser, .markSuccess n.id]) := by
      simp [process_one, hn, hb, hk, hkpos]
    refine ⟨hchar, ?_, ?_⟩
    · rw [hchar]
      simp
    · intro i
      rw [hchar]
      simp
  · intro h
    rcases h with hk0 | ⟨e, he⟩
    · simp [process_one, hn, hb, hk0]
    · simp [process_one, hn, hb, he]

/-- Witness for C4: the bus reports fan-out 2 and the row is delivered
via bus with a single mark_success call. -/
theorem process_one_bus_first_witness :
    process_one busHitEnv ⟨3, 4, "t"⟩ = (.bus, [.busPublishUser, .markSuccess 3]) :=
  ((process_one_bus_first busHitEnv ⟨3, 4, "t"⟩
    { publishUser := .ok 2, publishTopic := .ok 0 }
    (by decide) rfl).1 2 rfl (by decide)).1

/-- C6: per-device FCM send classification — HTTP 2xx is success; a
non-2xx response whose body contains UNREGISTERED or INVALID_ARGUMENT is
InvalidToken, and the worker loop then emits the `remove_device` call for
that device token; every other non-2xx response and every transport error
is a transient SendError. -/
theorem fcm_send_classification :
    (∀ e, classifySend (.transportError e) =
      .error (.sendError ("Request failed: " ++ e))) ∧
    (∀ st body, isSuccessStatus st = true →
      classifySend (.response st body) = .ok ()) ∧
    (∀ st body, isSuccessStatus st = false →
      (strContains body "UNREGISTERED" || strContains body "INVALID_ARGUMENT") = true →
      classifySend (.response st body) = .error .invalidToken) ∧
    (∀ st body, isSuccessStatus st = false →
      (strContains body "UNREGISTERED" || strContains body "INVALID_ARGUMENT") = false →
      classifySend (.response st body) =
        .error (.sendError (statusLine st ++ ": " ++ body))) ∧
    (∀ env f ds, env.fcm = some f → env.devices = .ok ds →
      ∀ j : Fin ds.length, f.sendDevice j.val = .error .invalidToken →
        Event.removeDevice (ds.get j).fcm_token ∈ (send_via_push env).2) := by
  refine ⟨?_, ?_, ?_, ?_, ?_⟩
  · intro e
    rfl
  · intro st body hst
    simp [classifySend, hst]
  · intro st body hst hbody
    simp [classifySend, hst, hbody]
  · intro st body hst hbody
    simp [classifySend, hst, hbody]
  · intro env f ds hf hd j hinv
    have hemp : ds.isEmpty = false := by
      cases ds with
      | nil => exact absurd j.isLt (by simp)
      | cons x xs => rfl
    have hmem := pushLoop_removeDevice_mem f.sendDevice env.removeRes ds 0 0 none j
      (by simpa using hinv)
    simp only [send_via_push, hf, hd, hemp, Bool.false_eq_true, if_false]
    by_cases hpos : (pushLoop f.sendDevice env.removeRes ds 0 0 none).1 > 0
    · rw [if_pos hpos]
      exact List.mem_cons_of_mem _ hmem
    · rw [if_neg hpos]
      exact List.mem_cons_of_mem _ hmem

/-- Witness for C6 at concrete responses: 200 is success, 404 with an
UNREGISTERED body is InvalidToken and leads to the registry delete, 503
is a transient SendError, and a transport error is a SendError. -/
theorem fcm_send_classification_witness :
    classifySend (.response 200 "") = .ok () ∧
    classifySend (.response 404 "error: UNREGISTERED") = .error .invalidToken ∧
    classifySend (.response 503 "unavailable") =
      .error (.sendError (statusLine 503 ++ ": " ++ "unavailable")) ∧
    classifySend (.transportError "timeout") =
      .error (.sendError ("Request failed: " ++ "timeout")) ∧
    Event.removeDevice "tokA" ∈ (send_via_push invalidEnvW).2 := by
  obtain ⟨h1, h2, h3, h4, h5⟩ := fcm_send_classification
  refine ⟨h2 200 "" rfl, h3 404 "error: UNREGISTERED" rfl (by decide),
    h4 503 "unavailable" rfl (by decide), h1 "timeout", ?_⟩
  have := h5 invalidEnvW { sendDevice := invalidSendW, sendTopic := .ok () }
    [{ fcm_token := "tokA", device_type := "android" }] rfl rfl ⟨0, by decide⟩ rfl
  simpa using this

/-- A processed broadcast always gets its `mark_success` call and never a
`mark_failure` call, whatever the sink outcomes. -/
theorem process_broadcast_marks (env : WorkerEnv) (n : Notification) :
    Event.markSuccess n.id ∈ (process_broadcast env n).2 ∧
    ∀ idx r, Event.markFailure idx r ∉ (process_broadcast env n).2 := by
  rcases henv : env.bus with _ | b
  · rcases hf : env.fcm with _ | f
    · simp [process_broadcast, henv, hf]
    · rcases hft : f.sendTopic with e | u <;> simp [process_broadcast, henv, hf, hft]
  · rcases hbt : b.publishTopic with e | u
    · rcases hf : env.fcm with _ | f
      · simp [process_broadcast, henv, hf, hbt]
      · rcases hft : f.sendTopic with e2 | v <;>
          simp [process_broadcast, henv, hf, hbt, hft]
    · rcases hf : env.fcm with _ | f
      · simp [process_broadcast, henv, hf, hbt]
      · rcases hft : f.sendTopic with e2 | v <;>
          simp [process_broadcast, henv, hf, hbt, hft]

/-- A push-path outcome reported as a success carries a `mark_success`
call and no `mark_failure` call. -/
theorem pushPath_marks (env : WorkerEnv) (n : Notification) :
    ((pushPath env n).1 = .bus ∨ (pushPath env n).1 = .push) →
    Event.markSuccess n.id ∈ (pushPath env n).2 ∧
    ∀ idx r, Event.markFailure idx r ∉ (pushPath env n).2 := by
  intro hres
  rcases hs : (send_via_push env).1 with msg | k
  · have hfail : (pushPath env n).1 = .failed := by simp [pushPath, hs]
    rcases hres with h | h <;> rw [hfail] at h <;> exact absurd h (by simp)
  · constructor
    · simp [pushPath, hs]
    · intro idx r hmem
      simp only [pushPath, hs] at hmem
      rcases List.mem_append.mp hmem with h1 | h2
      · rcases send_via_push_events_shape env _ h1 with h | ⟨j, h⟩ | ⟨t, h⟩ <;>
          exact absurd h (by simp)
      · exact absurd h2 (by simp)

/-- C9: the persistence result of `mark_success` is invisible to the
engine — `process_one` yields the same result and the same calls whatever
that result is — and a delivery reported as success via bus or push has a
`mark_success` call and never a `mark_failure` call in its trace. -/
theorem mark_success_error_isolation (env : WorkerEnv) (n : Notification)
    (s : Except String Bool) :
    process_one { env with markSuccessRes := s } n = process_one env n ∧
    (((process_one env n).1 = .bus ∨ (process_one env n).1 = .push) →
      Event.markSuccess n.id ∈ (process_one env n).2 ∧
      ∀ idx r, Event.markFailure idx r ∉ (process_one env n).2) := by
  constructor
  · rcases env with ⟨bus, fcm, dev, rm, ms, mf⟩
    rfl
  · intro hres
    by_cases hb0 : n.user_id = 0
    · have hpb : process_one env n = process_broadcast env n := by
        simp [process_one, hb0]
      rw [hpb]
      exact process_broadcast_marks env n
    · rcases hbus : env.bus with _ | b
      · have hpo : process_one env n = pushPath env n := by
          simp [process_one, hb0, hbus]
        rw [hpo] at hres ⊢
        exact pushPath_marks env n hres
      · rcases hpub : b.publishUser with e | k
        · have hchar : process_one env n =
              ((pushPath env n).1, .busPublishUser :: (pushPath env n).2) := by
            simp [process_one, hb0, hbus, hpub]
          rw [hchar] at hres ⊢
          have hres2 : (pushPath env n).1 = .bus ∨ (pushPath env n).1 = .push := by
            simpa using hres
          obtain ⟨hm1, hm2⟩ := pushPath_marks env n hres2
          refine ⟨List.mem_cons_of_mem _ hm1, ?_⟩
          intro idx r hmem
          rcases List.mem_cons.mp hmem with habs | h2
          · exact absurd habs (by simp)
          · exact hm2 idx r h2
        · by_cases hk : k > 0
          · have hchar : process_one env n =
                (.bus, [.busPublishUser, .markSuccess n.id]) := by
              simp [process_one, hb0, hbus, hpub, hk]
            rw [hchar]
            constructor
            · simp
            · intro idx r
              simp
          · have hchar : process_one env n =
                ((pushPath env n).1, .busPublishUser :: (pushPath env n).2) := by
              simp [process_one, hb0, hbus, hpub, hk]
            rw [hchar] at hres ⊢
            have hres2 : (pushPath env n).1 = .bus ∨ (pushPath env n).1 = .push := by
              simpa using hres
            obtain ⟨hm1, hm2⟩ := pushPath_marks env n hres2
            refine ⟨List.mem_cons_of_mem _ hm1, ?_⟩
            intro idx r hmem
            rcases List.mem_cons.mp hmem with habs | h2
            · exact absurd habs (by simp)
            · exact hm2 idx r h2

/-- Witness for C9: with the bus delivering and the mark_success SP call
erroring, the engine's outcome is unchanged and no failure is recorded. -/
theorem mark_success_error_isolation_witness :
    process_one { busHitEnv with markSuccessRes := .error "db down" } ⟨3, 4, "t"⟩ =
      process_one busHitEnv ⟨3, 4, "t"⟩ ∧
    Event.markSuccess 3 ∈ (process_one busHitEnv ⟨3, 4, "t"⟩).2 := by
  obtain ⟨h1, h2⟩ := mark_success_error_isolation busHitEnv ⟨3, 4, "t"⟩ (.error "db down")
  exact ⟨h1, (h2 (Or.inl rfl)).1⟩

/-- C10: in the per-device loop, an InvalidToken outcome never feeds
`last_error` (replacing an InvalidToken outcome by a success leaves
`last_error` unchanged), a failing `remove_device` call changes neither
the push outcome nor any emitted call (the whole engine output is
independent of those results), and every device is still attempted —
the trace has a send event for each position. -/
theorem push_device_loop_isolation :
    (∀ (env : WorkerEnv) (rm : String → Except String Unit) (n : Notification),
      send_via_push { env with removeRes := rm } = send_via_push env ∧
      process_one { env with removeRes := rm } n = process_one env n) ∧
    (∀ env f ds, env.fcm = some f → env.devices = .ok ds →
      ∀ j : Fin ds.length, Event.fcmSend j.val ∈ (send_via_push env).2) ∧
    (∀ (send : Nat → Except FcmError Unit) (i nn : Nat) (acc : Option String) (j : Nat),
      send j = Except.error FcmError.invalidToken →
      lastErrAux (fun m => if m = j then Except.ok () else send m) i nn acc =
        lastErrAux send i nn acc) := by
  refine ⟨?_, ?_, ?_⟩
  · intro env rm n
    rcases env with ⟨bus, fcm, dev, rm0, ms, mf⟩
    exact ⟨send_via_push_rm_aux bus fcm dev rm0 rm ms mf,
      process_one_rm_aux bus fcm dev rm0 rm ms mf n⟩
  · intro env f ds hf hd j
    have hemp : ds.isEmpty = false := by
      cases ds with
      | nil => exact absurd j.isLt (by simp)
      | cons x xs => rfl
    have hmem := pushLoop_fcmSend_mem f.sendDevice env.removeRes ds 0 0 none j.val j.isLt
    rw [Nat.zero_add] at hmem
    simp only [send_via_push, hf, hd, hemp, Bool.false_eq_true, if_false]
    by_cases hpos : (pushLoop f.sendDevice env.removeRes ds 0 0 none).1 > 0
    · rw [if_pos hpos]
      exact List.mem_cons_of_mem _ hmem
    · rw [if_neg hpos]
      exact List.mem_cons_of_mem _ hmem
  · intro send i nn
    induction nn generalizing i with
    | zero =>
      intro acc j hj
      rfl
    | succ nn ih =>
      intro acc j hj
      by_cases hij : i = j
      · subst hij
        simp only [lastErrAux, hj, if_pos rfl]
        exact ih (i + 1) _ i hj
      · have hstep : (if i = j then Except.ok () else send i) = send i := by
          rw [if_neg hij]
        simp only [lastErrAux, hstep]
        exact ih (i + 1) _ j hj

/-- Witness for C10: one invalid-token device with a failing
`remove_device`: the outcome and trace are unchanged under a succeeding
`remove_device`, the device still got its send attempt, and the lone
InvalidToken left `last_error` empty. -/
theorem push_device_loop_isolation_witness :
    send_via_push { invalidEnvW with removeRes := fun _ => .ok () } =
      send_via_push invalidEnvW ∧
    Event.fcmSend 0 ∈ (send_via_push invalidEnvW).2 ∧
    lastErrAux (fun m => if m = 0 then Except.ok () else invalidSendW m) 0 1 none =
      lastErrAux invalidSendW 0 1 none := by
  obtain ⟨h1, h2, h3⟩ := push_device_loop_isolation
  refine ⟨(h1 invalidEnvW (fun _ => .ok ()) ⟨0, 1, ""⟩).1, ?_, h3 invalidSendW 0 1 none 0 rfl⟩
  have := h2 invalidEnvW { sendDevice := invalidSendW, sendTopic := .ok () }
    [{ fcm_token := "tokA", device_type := "android" }] rfl rfl ⟨0, by decide⟩
  simpa using this
